import Mathlib

/-!
Shallow embedding of the leaderboard ranking engine
(backend/src/services/leaderboardService.ts, backend/src/routes/leaderboardRoutes.ts,
backend/src/cron/jobs.ts).

The durable relational store (PostgreSQL table public.players) is modelled as a
list of records; the ordered cache (the Redis sorted set under key "leaderboard",
together with the scalar keys leaderboard:init_done, leaderboard:last_known_id
and leaderboard:sync_offset, and the process-wide boolean lock) is modelled as
an explicit state record.  Asynchronous I/O failures of durable-store reads are
modelled by an explicit oracle (a list of booleans consumed one per read
attempt, true = the read throws); loops take fuel and return none when it runs
out.  JavaScript number arithmetic in the reward computation is idealised as
exact rational arithmetic, and Math.round as floor(x + 1/2).
-/

namespace Leaderboard

/-- One member of the Redis sorted set "leaderboard": the member string is the
player id rendered in decimal (r.id.toString()), the score is the player
money (field money). -/
structure ZEntry where
  member : String
  score : Int
deriving DecidableEq, Repr

/-- Display precedence of the sorted set read through zrevrange / zrevrank:
higher score first; Redis orders equal-score members lexicographically, so the
reversed range lists equal-score members in descending lexicographic order. -/
def zBefore (a b : ZEntry) : Prop :=
  b.score < a.score ∨ (a.score = b.score ∧ b.member ≤ a.member)

instance : DecidableRel zBefore := fun a b =>
  decidable_of_iff (b.score < a.score ∨ (a.score = b.score ∧ b.member ≤ a.member)) Iff.rfl

/-- ZADD leaderboard score member: upsert of one member, keeping the set in
display order (the model keeps the board sorted by zBefore). -/
def zaddEntry (board : List ZEntry) (score : Int) (member : String) : List ZEntry :=
  List.orderedInsert zBefore (ZEntry.mk member score) (board.filter (fun e => e.member ≠ member))

/-- ZREVRANGE leaderboard start stop (inclusive 0-based bounds, as in Redis). -/
def zrevrangeEntries (board : List ZEntry) (start stop : Nat) : List ZEntry :=
  (board.drop start).take (stop + 1 - start)

/-- ZREVRANGE returning only the member strings. -/
def zrevrangeMembers (board : List ZEntry) (start stop : Nat) : List String :=
  (zrevrangeEntries board start stop).map ZEntry.member

/-- ZREVRANK leaderboard member: 0-based position of the member in display
order, none when the member is absent. -/
def zrevrankOf (board : List ZEntry) (m : String) : Option Nat :=
  match board with
  | [] => none
  | e :: rest => if e.member = m then some 0 else (zrevrankOf rest m).map (· + 1)

/-- One row of the durable store table public.players. -/
structure PlayerRec where
  id : Nat
  name : String
  countryId : Nat
  money : Int
deriving DecidableEq, Repr

/-- SELECT ... ORDER BY id ASC: the store sorted by primary key. -/
def sortById (db : List PlayerRec) : List PlayerRec :=
  List.insertionSort (fun p q => p.id ≤ q.id) db

/-- SELECT id, money FROM public.players WHERE pred ORDER BY id ASC
LIMIT limit OFFSET offset. -/
def pageOf (db : List PlayerRec) (pred : PlayerRec → Bool) (offset limit : Nat) :
    List PlayerRec :=
  (((sortById db).filter pred).drop offset).take limit

/-- COALESCE(MAX(id), 0) over public.players. -/
def maxPlayerId (db : List PlayerRec) : Nat :=
  db.foldl (fun acc p => max acc p.id) 0

/-- Engine state: the process-wide boolean lock (variable processing), the
ordered cache, and the three scalar Redis keys.  The three keys are nullable
in Redis; leaderboard:init_done is modelled as a
boolean (the code only ever writes the string "1" or deletes the key, and the
route tests truthiness). -/
structure St where
  processing : Bool
  board : List ZEntry
  initDone : Bool
  lastKnownId : Option Nat
  syncOffset : Option Nat
deriving DecidableEq, Repr

/-- Pipeline of ZADDs for a page of rows read from the store. -/
def upsertRows (board : List ZEntry) (rows : List PlayerRec) : List ZEntry :=
  rows.foldl (fun b r => zaddEntry b r.money (toString r.id)) board

/-- Placeholder entry used as the out-of-range default of list indexing in
statements (never reached at in-range indices). -/
def defaultEntry : ZEntry :=
  { member := "", score := 0 }

/-- Placeholder store row used as the out-of-range default of list indexing. -/
def defaultPlayer : PlayerRec :=
  { id := 0, name := "", countryId := 0, money := 0 }

/-! ### Weekly reward distribution (distributeWeeklyRewards) -/

/-- JavaScript Math.round on the idealised rational value of a JS number. -/
def jsRound (q : ℚ) : Int := ⌊q + 1 / 2⌋

/-- totalMoney = playersList.reduce((acc, p) => acc + p.score, 0) followed by
totalPool = totalMoney * 0.02. -/
def poolOf (playersList : List ZEntry) : ℚ :=
  (playersList.foldl (fun acc p => acc + (p.score : ℚ)) 0) * (2 / 100)

/-- The distribution table: rank 1 gets 20 percent, rank 2 gets 15, rank 3
gets 10. -/
def rankPct : Nat → ℚ
  | 1 => 20
  | 2 => 15
  | 3 => 10
  | _ => 0

/-- Amount credited to the 0-based position i of the retrieved top list:
ranks 1..3 take their percentage of the pool, every later rank takes
(pool - pool * 45 / 100) / 97 regardless of how many players are listed. -/
def rewardAmount (totalPool : ℚ) (i : Nat) : ℚ :=
  if i + 1 ≤ 3 then totalPool * (rankPct (i + 1) / 100)
  else (totalPool - totalPool * ((20 + 15 + 10) / 100)) / 97

/-- The list of (member, rounded amount) updates issued by the distribution
loop, in rank order. -/
def rewardUpdates (playersList : List ZEntry) : List (String × Int) :=
  (List.range playersList.length).map fun i =>
    ((playersList.getD i defaultEntry).member, jsRound (rewardAmount (poolOf playersList) i))

/-- UPDATE public.players SET money = money + amount WHERE id = member, for
each update in order. -/
def applyUpdates (db : List PlayerRec) (updates : List (String × Int)) : List PlayerRec :=
  updates.foldl
    (fun d u => d.map fun p => if toString p.id = u.1 then
      { p with money := p.money + u.2 } else p)
    db

/-- distributeWeeklyRewards: reads the top 100 of the cache with scores,
computes the pool and the tiered amounts, and applies the rounded updates to
the durable store.  It does not touch the cache state and performs no lock
writes (the returned trace records every assignment to the processing lock
made during the call). -/
def distributeWeeklyRewards (db : List PlayerRec) (s : St) :
    List PlayerRec × St × List Bool :=
  (applyUpdates db (rewardUpdates (zrevrangeEntries s.board 0 99)), s, [])

/-! ### Full rebuild (initializeLeaderboard) -/

/-- Outcome of a full-rebuild call. -/
inductive InitOutcome where
  | skipped
  | completed
  | aborted
deriving DecidableEq, Repr

/-- The rebuild prologue: DEL leaderboard:init_done, DEL leaderboard, and
SET leaderboard:sync_offset 0, in that order, before any row is read. -/
def initPrologue (s : St) : St :=
  { s with initDone := false, board := [], syncOffset := some 0 }

/-- The adaptive page loop of initializeLeaderboard.  Each iteration reads one
page (no predicate, ORDER BY id ASC LIMIT pageSize OFFSET offset); a read
failure (oracle head true) halves pageSize and retries the same offset, and
aborts when the halved pageSize drops below 1000; an empty page ends the loop;
otherwise the rows are upserted into the cache, the offset advances by the
rows read, and pageSize doubles up to the 1,000,000 cap.  Redis chunk
insertion failures (the RangeError backoff on chunkSizeRedis) are not
modelled; absent them the chunked pipeline equals upserting the rows in
order.  Fuel exhaustion gives none. -/
def initLoop (db : List PlayerRec) :
    Nat → List Bool → Nat → Nat → List ZEntry → Option (Except Unit (List ZEntry))
  | 0, _, _, _, _ => none
  | fuel + 1, oracle, pageSize, offset, board =>
    if oracle.headD false then
      let ps := pageSize / 2
      if ps < 1000 then some (Except.error ())
      else initLoop db fuel oracle.tail ps offset board
    else
      let rows := pageOf db (fun _ => true) offset pageSize
      if rows.isEmpty then some (Except.ok board)
      else initLoop db fuel oracle.tail (min (pageSize * 2) 1000000) (offset + rows.length)
        (upsertRows board rows)

/-- initializeLeaderboard: skips when the processing lock is held; otherwise
sets the lock, runs the prologue and the page loop from pageSize 500,000 and
offset 0, and on exhaustion records COALESCE(MAX(id),0) under
leaderboard:last_known_id and sets leaderboard:init_done; the finally block
clears the lock on every exit.  The trace lists every value assigned to the
lock during the call. -/
def initializeLeaderboard (db : List PlayerRec) (oracle : List Bool) (fuel : Nat) (s : St) :
    Option (InitOutcome × St × List Bool) :=
  if s.processing then some (InitOutcome.skipped, s, [])
  else
    let s1 : St := { initPrologue s with processing := true }
    match initLoop db fuel oracle 500000 0 [] with
    | none => none
    | some (Except.error _) =>
      some (InitOutcome.aborted, { s1 with processing := false }, [true, false])
    | some (Except.ok b) =>
      some (InitOutcome.completed,
        { s1 with processing := false, board := b, initDone := true,
                  lastKnownId := some (maxPlayerId db) }, [true, false])

/-! ### Paged delta sync (syncOnePageOfNewPlayers) -/

/-- syncOnePageOfNewPlayers: parses leaderboard:last_known_id and
leaderboard:sync_offset (absent keys read as 0), reads one page of rows with
id greater than last_known_id (ORDER BY id ASC LIMIT 100000 OFFSET
sync_offset) — this read is not guarded, so a store failure aborts the pass —
then either resets sync_offset to 0 and reports true (range exhausted) on an
empty page, or upserts the rows, advances sync_offset by the rows applied,
and reports false.  The trace lists every assignment to the processing lock
made during the call (the function never touches the lock). -/
def syncOnePageOfNewPlayers (db : List PlayerRec) (oracle : List Bool) (s : St) :
    Except Unit (Bool × St) × List Bool :=
  let lastKnownId := s.lastKnownId.getD 0
  let syncOffset := s.syncOffset.getD 0
  if oracle.headD false then (Except.error (), [])
  else
    let rows := pageOf db (fun p => lastKnownId < p.id) syncOffset 100000
    if rows.isEmpty then (Except.ok (true, { s with syncOffset := some 0 }), [])
    else
      (Except.ok (false,
        { s with board := upsertRows s.board rows,
                 syncOffset := some (syncOffset + rows.length) }), [])

/-! ### Windowed rank query (getLeaderboardData) -/

/-- The id window assembled by getLeaderboardData: the top 100 members, and,
when a player is requested, none when the player is absent from the cache,
just the top 100 when its 0-based rank is below 100, and otherwise the members
at 0-based ranks max(rank-3,0) .. rank+2 that are not already in the top 100,
appended after it (truncated Nat subtraction equals Math.max(rank-3, 0)). -/
def windowIds (board : List ZEntry) (playerId : Option String) : Option (List String) :=
  let top100 := zrevrangeMembers board 0 99
  match playerId with
  | none => some top100
  | some pid =>
    match zrevrankOf board pid with
    | none => none
    | some rank =>
      if rank < 100 then some top100
      else
        let extra := zrevrangeMembers board (rank - 3) (rank + 2)
        some (top100 ++ extra.filter (fun x => ¬ top100.contains x))

/-- One hydrated row of the query result: joined name and country from the
durable store plus the 1-based rank read back from the cache. -/
structure RankedRow where
  id : Nat
  name : String
  country : String
  money : Int
  rank : Option Nat
deriving DecidableEq, Repr

/-- The hydration step: for each id of the window, in window order, the join
SELECT p.id, p.name, c.name, p.money ... WHERE p.id IN (window); ids whose
player or country row is missing are silently dropped, every kept row gets
rank = zrevrank + 1. -/
def hydrate (db : List PlayerRec) (countries : List (Nat × String)) (board : List ZEntry)
    (ids : List String) : List RankedRow :=
  ids.filterMap fun idStr =>
    match db.find? (fun p => toString p.id == idStr) with
    | none => none
    | some p =>
      match countries.find? (fun c => c.1 == p.countryId) with
      | none => none
      | some c =>
        some (RankedRow.mk p.id p.name c.2 p.money ((zrevrankOf board idStr).map (· + 1)))

/-- Result of getLeaderboardData: either the player-not-found error object or
the hydrated window rows. -/
inductive LBOut where
  | notFound
  | rows (rs : List RankedRow)
deriving DecidableEq, Repr

/-- getLeaderboardData: self-heals by running a full rebuild when the cache
key is missing or empty (both collapse to an empty board in the model), then
assembles the window and hydrates it; an empty window returns the empty row
list.  Returns none only when the self-heal rebuild runs out of fuel. -/
def getLeaderboardData (db : List PlayerRec) (countries : List (Nat × String))
    (oracle : List Bool) (fuel : Nat) (playerId : Option String) (s : St) :
    Option (LBOut × St × List Bool) :=
  let healed : Option (St × List Bool) :=
    if s.board.isEmpty then
      (initializeLeaderboard db oracle fuel s).map (fun r => (r.2.1, r.2.2))
    else some (s, [])
  healed.bind fun p =>
    match windowIds p.1.board playerId with
    | none => some (LBOut.notFound, p.1, p.2)
    | some ids =>
      if ids.isEmpty then some (LBOut.rows [], p.1, p.2)
      else some (LBOut.rows (hydrate db countries p.1.board ids), p.1, p.2)

/-! ### HTTP route GET /api/leaderboard (leaderboardRoutes.ts) -/

/-- One row of the group=1 branch (per-country top 10). -/
structure GroupedRow where
  id : Nat
  name : String
  country : String
  money : Int
  rank : Nat
deriving DecidableEq, Repr

/-- The group=1 query: per country, players ordered by money descending with
ROW_NUMBER as rank, kept while rank is at most 10, output ordered by country
name then rank.  ROW_NUMBER leaves the order of equal-money rows unspecified;
the model fixes the tie order to ascending id. -/
def groupTop10 (db : List PlayerRec) (countries : List (Nat × String)) : List GroupedRow :=
  (List.insertionSort (fun a b : Nat × String => a.2 ≤ b.2) countries).foldr
    (fun c acc =>
      let ps := List.insertionSort
        (fun p q : PlayerRec => q.money < p.money ∨ (p.money = q.money ∧ p.id ≤ q.id))
        (db.filter (fun p => p.countryId == c.1))
      ((List.range (min 10 ps.length)).map fun i =>
        GroupedRow.mk (ps.getD i defaultPlayer).id (ps.getD i defaultPlayer).name
          c.2 (ps.getD i defaultPlayer).money (i + 1)) ++ acc)
    []

/-- Response of the GET /api/leaderboard handler. -/
inductive ApiResp where
  | serviceUnavailable (error message : String)
  | json (body : LBOut)
  | grouped (rs : List GroupedRow)
deriving DecidableEq, Repr

/-- The GET /api/leaderboard handler: reads leaderboard:init_done first and
answers 503 IndexingInProgress when it is unset, before looking at the query
string; otherwise serves the group branch or the windowed scoreboard. -/
def leaderboardRoute (db : List PlayerRec) (countries : List (Nat × String))
    (oracle : List Bool) (fuel : Nat) (group : Bool) (playerId : Option String) (s : St) :
    Option (ApiResp × St × List Bool) :=
  if !s.initDone then
    some (ApiResp.serviceUnavailable ("IndexingInProgress")
      ("We are indexing data. Please try a few minutes later."), s, [])
  else if group then some (ApiResp.grouped (groupTop10 db countries), s, [])
  else (getLeaderboardData db countries oracle fuel playerId s).map
    (fun r => (ApiResp.json r.1, r.2.1, r.2.2))

/-! ### Cron wrappers (cron/jobs.ts) -/

/-- The body of the 10-second cron: up to 5 delta pages per trigger, stopping
early when a page reports the range exhausted; a thrown error is caught and
logged, leaving the state reached before the failing page. -/
def cronDeltaRun (db : List PlayerRec) : Nat → List Bool → St → St
  | 0, _, s => s
  | n + 1, oracle, s =>
    match syncOnePageOfNewPlayers db oracle s with
    | (Except.error _, _) => s
    | (Except.ok (true, s1), _) => s1
    | (Except.ok (false, s1), _) => cronDeltaRun db n oracle.tail s1

/-- The 10-second delta cron job: checks the processing lock and skips the
whole trigger when it is held, otherwise runs up to 5 pages. -/
def cronDeltaTick (db : List PlayerRec) (oracle : List Bool) (s : St) : St :=
  if s.processing then s else cronDeltaRun db 5 oracle s

/-- The weekly cron job: checks the processing lock and skips when it is
held; otherwise runs the distribution and then a full rebuild, concatenating
the lock traces of both calls. -/
def cronWeeklyTick (db : List PlayerRec) (oracle : List Bool) (fuel : Nat) (s : St) :
    Option (List PlayerRec × St × List Bool) :=
  if s.processing then some (db, s, [])
  else
    let d := distributeWeeklyRewards db s
    (initializeLeaderboard d.1 oracle fuel d.2.1).map
      (fun r => (d.1, r.2.1, d.2.2 ++ r.2.2))

/-! ## Helper lemmas -/

/-- Folding JS number addition over the score list equals the sum of the cast
scores. -/
theorem foldl_add_cast (l : List ZEntry) (a : ℚ) :
    l.foldl (fun acc p => acc + (p.score : ℚ)) a = a + (l.map fun e => (e.score : ℚ)).sum := by
  induction l generalizing a with
  | nil => simp
  | cons h t ih => simp [ih, add_assoc]

/-- The update issued for the 0-based position i of the retrieved top list. -/
theorem rewardUpdates_getD (l : List ZEntry) (i : Nat) (h : i < l.length) :
    (rewardUpdates l).getD i ("", 0) =
      ((l.getD i defaultEntry).member, jsRound (rewardAmount (poolOf l) i)) := by
  unfold rewardUpdates
  rw [List.getD_eq_getElem?_getD, List.getElem?_map, List.getElem?_range h]
  rfl

/-- ZREVRANGE 0 99 returns the whole set when it has at most 100 members. -/
theorem zrevrangeEntries_top100_of_le (board : List ZEntry) (h : board.length ≤ 100) :
    zrevrangeEntries board 0 99 = board := by
  unfold zrevrangeEntries
  simp [List.take_of_length_le h]

/-- Characterisation of the modelled Math.round used to evaluate concrete
payouts. -/
theorem jsRound_eq (q : ℚ) (n : Int) (h1 : (n : ℚ) ≤ q + 1 / 2) (h2 : q + 1 / 2 < n + 1) :
    jsRound q = n := by
  unfold jsRound
  rw [Int.floor_eq_iff]
  constructor
  · exact_mod_cast h1
  · exact_mod_cast h2

/-- A nonempty list is not isEmpty. -/
theorem isEmpty_false_of_ne_nil {α : Type} (l : List α) (h : l ≠ []) : l.isEmpty = false := by
  cases l with
  | nil => exact absurd rfl h
  | cons a t => rfl

/-! ## Concrete scenarios -/

/-- A projection of exactly 100 players whose scores total 1,000,000. -/
def board100 : List ZEntry := (List.range 100).map fun i =>
  { member := toString (i + 1), score := 10000 }

/-- Engine state holding the 100-player projection. -/
def st100 : St :=
  { processing := false, board := board100, initDone := true,
    lastKnownId := some 100, syncOffset := some 0 }

/-- A projection of only 4 ranked players, scores totalling 1,000,000. -/
def board4 : List ZEntry :=
  [{ member := "1", score := 400000 }, { member := "2", score := 300000 },
   { member := "3", score := 200000 }, { member := "4", score := 100000 }]

/-- A one-player durable store. -/
def dbOne : List PlayerRec := [{ id := 1, name := "a", countryId := 1, money := 1000 }]

/-- A state whose processing lock is held. -/
def stLocked : St :=
  { processing := true, board := [{ member := "1", score := 1000 }], initDone := true,
    lastKnownId := some 1, syncOffset := some 0 }

/-- A fresh state: empty cache, ready flag unset, no sync-state keys. -/
def stZero : St :=
  { processing := false, board := [], initDone := false, lastKnownId := none,
    syncOffset := none }

/-- A ready state with an empty cache and zeroed sync-state keys. -/
def stReady : St :=
  { processing := false, board := [], initDone := true, lastKnownId := some 0,
    syncOffset := some 0 }

/-- A single country table used by the concrete query runs. -/
def countriesX : List (Nat × String) := [(1, "X")]

/-- Two players with distinct scores, present in store and projection. -/
def dbW : List PlayerRec :=
  [{ id := 1, name := "a", countryId := 1, money := 60 },
   { id := 2, name := "b", countryId := 1, money := 50 }]

/-- The projection of dbW, in display order. -/
def boardW : List ZEntry := [{ member := "1", score := 60 }, { member := "2", score := 50 }]

/-- Ready state holding the dbW projection. -/
def stW : St :=
  { processing := false, board := boardW, initDone := true, lastKnownId := some 2,
    syncOffset := some 0 }

/-- Two players with equal scores (a tie), present in store and projection. -/
def dbT : List PlayerRec :=
  [{ id := 1, name := "a", countryId := 1, money := 50 },
   { id := 2, name := "b", countryId := 1, money := 50 }]

/-- The projection of dbT in display order: the tie is broken by descending
member string, so member 2 precedes member 1. -/
def bT : List ZEntry := [{ member := "2", score := 50 }, { member := "1", score := 50 }]

/-- Ready state holding the tied projection. -/
def stT : St :=
  { processing := false, board := bT, initDone := true, lastKnownId := some 2,
    syncOffset := some 0 }

/-- A 110-player projection with distinct descending scores, ids 1..110. -/
def board110 : List ZEntry := (List.range 110).map fun i =>
  { member := toString (i + 1), score := 2000 - (i : Int) }

/-- The durable store matching board110. -/
def db110 : List PlayerRec := (List.range 110).map fun i =>
  { id := i + 1, name := toString (i + 1), countryId := 1, money := 2000 - (i : Int) }

/-- Ready state holding the 110-player projection. -/
def st110 : St :=
  { processing := false, board := board110, initDone := true, lastKnownId := some 110,
    syncOffset := some 0 }

/-- Number of rows carried by a query result (none when it is not a row
list). -/
def lbRowCount : Option (LBOut × St × List Bool) → Option Nat
  | some (LBOut.rows rs, _, _) => some rs.length
  | _ => none

/-! ## C1 -/

/-- C1: on a projection of exactly 100 players, distributeWeeklyRewards
applies exactly the updates of rewardUpdates on the whole projection, the pool
is 2 percent of the sum of the top-100 scores, rank 1 is paid
round(20 percent of pool), rank 2 round(15 percent), rank 3
round(10 percent), and every rank 4..100 is paid
round((pool - 0.45 * pool) / 97). -/
theorem distributeWeeklyRewards_schedule_on_100 (db : List PlayerRec) (s : St)
    (h : s.board.length = 100) :
    distributeWeeklyRewards db s = (applyUpdates db (rewardUpdates s.board), s, []) ∧
    poolOf s.board = 2 / 100 * (s.board.map fun e => (e.score : ℚ)).sum ∧
    ((rewardUpdates s.board).getD 0 ("", 0)).2 = jsRound (20 / 100 * poolOf s.board) ∧
    ((rewardUpdates s.board).getD 1 ("", 0)).2 = jsRound (15 / 100 * poolOf s.board) ∧
    ((rewardUpdates s.board).getD 2 ("", 0)).2 = jsRound (10 / 100 * poolOf s.board) ∧
    ∀ i, 3 ≤ i → i < 100 →
      ((rewardUpdates s.board).getD i ("", 0)).2 =
        jsRound ((poolOf s.board - 45 / 100 * poolOf s.board) / 97) := by
  refine ⟨?_, ?_, ?_, ?_, ?_, ?_⟩
  · unfold distributeWeeklyRewards
    rw [zrevrangeEntries_top100_of_le _ (le_of_eq h)]
  · unfold poolOf
    rw [foldl_add_cast]
    ring
  · rw [rewardUpdates_getD _ _ (by omega)]
    unfold rewardAmount
    rw [if_pos (by omega)]
    show jsRound (poolOf s.board * (rankPct 1 / 100)) = _
    congr 1
    unfold rankPct
    ring
  · rw [rewardUpdates_getD _ _ (by omega)]
    unfold rewardAmount
    rw [if_pos (by omega)]
    show jsRound (poolOf s.board * (rankPct 2 / 100)) = _
    congr 1
    unfold rankPct
    ring
  · rw [rewardUpdates_getD _ _ (by omega)]
    unfold rewardAmount
    rw [if_pos (by omega)]
    show jsRound (poolOf s.board * (rankPct 3 / 100)) = _
    congr 1
    unfold rankPct
    ring
  · intro i h3 h100
    rw [rewardUpdates_getD _ _ (by omega)]
    unfold rewardAmount
    rw [if_neg (by omega)]
    rw [mul_comm (poolOf s.board) ((20 + 15 + 10) / 100 : ℚ)]
    norm_num

/-- C1 witness: the schedule theorem applied to the concrete 100-player
projection with total score 1,000,000, where the pool is 20,000 and the
payouts evaluate to 4,000, 3,000, 2,000 and 113 for the equal-share ranks. -/
theorem distributeWeeklyRewards_schedule_on_100_witness :
    st100.board.length = 100 ∧
    (distributeWeeklyRewards [] st100 =
      (applyUpdates [] (rewardUpdates st100.board), st100, []) ∧
     poolOf st100.board = 2 / 100 * (st100.board.map fun e => (e.score : ℚ)).sum ∧
     ((rewardUpdates st100.board).getD 0 ("", 0)).2 = jsRound (20 / 100 * poolOf st100.board) ∧
     ((rewardUpdates st100.board).getD 1 ("", 0)).2 = jsRound (15 / 100 * poolOf st100.board) ∧
     ((rewardUpdates st100.board).getD 2 ("", 0)).2 = jsRound (10 / 100 * poolOf st100.board) ∧
     ∀ i, 3 ≤ i → i < 100 →
       ((rewardUpdates st100.board).getD i ("", 0)).2 =
         jsRound ((poolOf st100.board - 45 / 100 * poolOf st100.board) / 97)) ∧
    poolOf st100.board = 20000 ∧
    jsRound (20 / 100 * poolOf st100.board) = 4000 ∧
    jsRound (15 / 100 * poolOf st100.board) = 3000 ∧
    jsRound (10 / 100 * poolOf st100.board) = 2000 ∧
    jsRound ((poolOf st100.board - 45 / 100 * poolOf st100.board) / 97) = 113 := by
  have hlen : st100.board.length = 100 := by simp [st100, board100]
  have hpool : poolOf st100.board = 20000 := by
    unfold poolOf
    rw [foldl_add_cast]
    have : (st100.board.map fun e => (e.score : ℚ)) = List.replicate 100 (10000 : ℚ) := by
      simp [st100, board100, List.map_map]
      rfl
    rw [this, List.sum_replicate]
    norm_num
  refine ⟨hlen, distributeWeeklyRewards_schedule_on_100 [] st100 hlen, hpool, ?_, ?_, ?_, ?_⟩
  · rw [hpool]
    apply jsRound_eq <;> norm_num
  · rw [hpool]
    apply jsRound_eq <;> norm_num
  · rw [hpool]
    apply jsRound_eq <;> norm_num
  · rw [hpool]
    apply jsRound_eq <;> norm_num

/-! ## C9 -/

/-- C9 counterexample: on a projection of 4 ranked players totalling
1,000,000, the code pays rank 4 with denominator 97 (round(11,000 / 97) =
113), not with denominator max(0, count - 3) = 1 (which would give 11,000),
so the claimed generalised schedule does not hold. -/
theorem rewardUpdates_small_board_cex :
    board4.length = 4 ∧ board4.length < 100 ∧
    ((rewardUpdates board4).getD 3 ("", 0)).2 = 113 ∧
    ((max 0 (4 - 3) : Int) : ℚ) = 1 ∧
    jsRound ((poolOf board4 - 45 / 100 * poolOf board4) / 1) = 11000 ∧
    (113 : Int) ≠ 11000 := by
  have hp : poolOf board4 = 20000 := by
    simp [poolOf, board4]
    norm_num
  refine ⟨by simp [board4], by simp [board4], ?_, by norm_num, ?_, by decide⟩
  · rw [rewardUpdates_getD _ _ (by simp [board4])]
    unfold rewardAmount
    rw [if_neg (by omega), hp]
    apply jsRound_eq <;> norm_num
  · rw [hp]
    apply jsRound_eq <;> norm_num

/-- C9 amended: with fewer than 100 ranked entities the schedule is applied
positionally (updates for ranks 4..N are issued), but the equal-share
denominator stays the hard-coded 97 regardless of the ranked count. -/
theorem rewardUpdates_fixed_denominator (db : List PlayerRec) (s : St)
    (h : s.board.length < 100) :
    distributeWeeklyRewards db s = (applyUpdates db (rewardUpdates s.board), s, []) ∧
    (rewardUpdates s.board).length = s.board.length ∧
    ∀ i, 3 ≤ i → i < s.board.length →
      ((rewardUpdates s.board).getD i ("", 0)).2 =
        jsRound ((poolOf s.board - 45 / 100 * poolOf s.board) / 97) := by
  refine ⟨?_, ?_, ?_⟩
  · unfold distributeWeeklyRewards
    rw [zrevrangeEntries_top100_of_le _ (le_of_lt h)]
  · unfold rewardUpdates
    simp
  · intro i h3 hlt
    rw [rewardUpdates_getD _ _ hlt]
    unfold rewardAmount
    rw [if_neg (by omega)]
    rw [mul_comm (poolOf s.board) ((20 + 15 + 10) / 100 : ℚ)]
    norm_num

/-- C9 amended witness: the fixed-denominator theorem applied to the 4-player
projection, where the rank-4 share evaluates to 113. -/
theorem rewardUpdates_fixed_denominator_witness :
    (St.mk false board4 true (some 4) (some 0)).board.length < 100 ∧
    (distributeWeeklyRewards [] (St.mk false board4 true (some 4) (some 0)) =
      (applyUpdates [] (rewardUpdates board4), St.mk false board4 true (some 4) (some 0), []) ∧
     (rewardUpdates board4).length = board4.length ∧
     ∀ i, 3 ≤ i → i < board4.length →
       ((rewardUpdates board4).getD i ("", 0)).2 =
         jsRound ((poolOf board4 - 45 / 100 * poolOf board4) / 97)) := by
  exact ⟨by simp [board4],
    rewardUpdates_fixed_denominator [] (St.mk false board4 true (some 4) (some 0))
      (by simp [board4])⟩

/-! ## C4 -/

/-- C4: when the readiness flag leaderboard:init_done is unset, the GET
leaderboard endpoint answers the distinct 503 IndexingInProgress signal and
never returns leaderboard rows, grouped rows, or an empty success, whatever
the query parameters are. -/
theorem leaderboardRoute_notReady (db : List PlayerRec) (countries : List (Nat × String))
    (oracle : List Bool) (fuel : Nat) (group : Bool) (pid : Option String) (s : St)
    (h : s.initDone = false) :
    leaderboardRoute db countries oracle fuel group pid s =
      some (ApiResp.serviceUnavailable ("IndexingInProgress")
        ("We are indexing data. Please try a few minutes later."), s, []) ∧
    (∀ body s2 tr, leaderboardRoute db countries oracle fuel group pid s ≠
      some (ApiResp.json body, s2, tr)) ∧
    (∀ rs s2 tr, leaderboardRoute db countries oracle fuel group pid s ≠
      some (ApiResp.grouped rs, s2, tr)) := by
  have he : leaderboardRoute db countries oracle fuel group pid s =
      some (ApiResp.serviceUnavailable ("IndexingInProgress")
        ("We are indexing data. Please try a few minutes later."), s, []) := by
    unfold leaderboardRoute
    rw [h]
    rfl
  refine ⟨he, ?_, ?_⟩
  · intro body s2 tr hc
    rw [he] at hc
    simp at hc
  · intro rs s2 tr hc
    rw [he] at hc
    simp at hc

/-- C4 witness: the 503 behaviour at the fresh state, whose readiness flag is
unset. -/
theorem leaderboardRoute_notReady_witness :
    stZero.initDone = false ∧
    (leaderboardRoute [] [] [] 0 false none stZero =
      some (ApiResp.serviceUnavailable ("IndexingInProgress")
        ("We are indexing data. Please try a few minutes later."), stZero, []) ∧
    (∀ body s2 tr, leaderboardRoute [] [] [] 0 false none stZero ≠
      some (ApiResp.json body, s2, tr)) ∧
    (∀ rs s2 tr, leaderboardRoute [] [] [] 0 false none stZero ≠
      some (ApiResp.grouped rs, s2, tr))) :=
  ⟨rfl, leaderboardRoute_notReady [] [] [] 0 false none stZero rfl⟩

/-! ## C7 -/

/-- C7: when the single durable-store read of a delta pass succeeds, a pass
reading zero rows resets leaderboard:sync_offset to 0 and reports the range
exhausted; a pass reading rows upserts them and advances the cursor by
exactly the number of rows applied; and every non-throwing pass leaves
leaderboard:last_known_id (and the readiness flag) unchanged. -/
theorem syncOnePage_cursor (db : List PlayerRec) (oracle : List Bool) (s : St)
    (hok : oracle.headD false = false) :
    (pageOf db (fun p => s.lastKnownId.getD 0 < p.id) (s.syncOffset.getD 0) 100000 = [] →
      syncOnePageOfNewPlayers db oracle s =
        (Except.ok (true, { s with syncOffset := some 0 }), [])) ∧
    (∀ rows, rows = pageOf db (fun p => s.lastKnownId.getD 0 < p.id) (s.syncOffset.getD 0) 100000 →
      rows ≠ [] →
      syncOnePageOfNewPlayers db oracle s =
        (Except.ok (false,
          { s with
              board := upsertRows s.board rows,
              syncOffset := some (s.syncOffset.getD 0 + rows.length) }), [])) ∧
    (∀ d s2 tr, syncOnePageOfNewPlayers db oracle s = (Except.ok (d, s2), tr) →
      s2.lastKnownId = s.lastKnownId ∧ s2.initDone = s.initDone ∧
      s2.processing = s.processing) := by
  refine ⟨?_, ?_, ?_⟩
  · intro hrows
    unfold syncOnePageOfNewPlayers
    rw [hok]
    simp [hrows]
  · intro rows hdef hne
    unfold syncOnePageOfNewPlayers
    rw [hok]
    simp only [Bool.false_eq_true, if_false]
    rw [← hdef, if_neg (by simp [hne])]
  · intro d s2 tr hrun
    unfold syncOnePageOfNewPlayers at hrun
    rw [hok] at hrun
    simp only [Bool.false_eq_true, if_false] at hrun
    by_cases hemp : (pageOf db (fun p => s.lastKnownId.getD 0 < p.id)
        (s.syncOffset.getD 0) 100000).isEmpty
    · rw [if_pos hemp] at hrun
      cases hrun
      simp
    · rw [if_neg hemp] at hrun
      cases hrun
      simp

/-- C7 witness: the cursor law at a concrete one-player store, where the pass
reads one row and advances the cursor from 0 to 1 without touching
last_known_id. -/
theorem syncOnePage_cursor_witness :
    (([] : List Bool).headD false = false) ∧
    syncOnePageOfNewPlayers dbOne [] stReady =
      (Except.ok (false, St.mk false [{ member := "1", score := 1000 }] true (some 0) (some 1)),
        []) ∧
    ((pageOf dbOne (fun p => stReady.lastKnownId.getD 0 < p.id)
        (stReady.syncOffset.getD 0) 100000 = [] →
      syncOnePageOfNewPlayers dbOne [] stReady =
        (Except.ok (true, { stReady with syncOffset := some 0 }), [])) ∧
    (∀ rows, rows = pageOf dbOne (fun p => stReady.lastKnownId.getD 0 < p.id)
        (stReady.syncOffset.getD 0) 100000 →
      rows ≠ [] →
      syncOnePageOfNewPlayers dbOne [] stReady =
        (Except.ok (false,
          { stReady with
              board := upsertRows stReady.board rows,
              syncOffset := some (stReady.syncOffset.getD 0 + rows.length) }), [])) ∧
    (∀ d s2 tr, syncOnePageOfNewPlayers dbOne [] stReady = (Except.ok (d, s2), tr) →
      s2.lastKnownId = stReady.lastKnownId ∧ s2.initDone = stReady.initDone ∧
      s2.processing = stReady.processing)) :=
  ⟨rfl, by rfl, syncOnePage_cursor dbOne [] stReady rfl⟩

/-! ## C8 -/

/-- C8 counterexample: in delta sync the very first durable-store read
failure aborts the pass even though halving the 100,000 page size would stay
far above the floor of 1000, contradicting the claim that read failures are
retried with a halved page size in both full rebuild and delta sync. -/
theorem syncOnePage_abort_on_failure_cex :
    syncOnePageOfNewPlayers dbOne [true] stReady = (Except.error (), []) ∧
    ¬ (100000 / 2 < 1000) :=
  ⟨rfl, by decide⟩

/-- C8 amended: the full-rebuild page loop reacts to a read failure by
halving pageSize and retrying the same offset, aborting exactly when the
halved pageSize falls below 1000; the delta-sync pass has no such guard and
aborts on the first read failure. -/
theorem adaptiveRetry_init_vs_sync :
    (∀ (db : List PlayerRec) (fuel ps off : Nat) (rest : List Bool) (board : List ZEntry),
      ¬ (ps / 2 < 1000) →
      initLoop db (fuel + 1) (true :: rest) ps off board =
        initLoop db fuel rest (ps / 2) off board) ∧
    (∀ (db : List PlayerRec) (fuel ps off : Nat) (rest : List Bool) (board : List ZEntry),
      ps / 2 < 1000 →
      initLoop db (fuel + 1) (true :: rest) ps off board = some (Except.error ())) ∧
    (∀ (db : List PlayerRec) (oracle : List Bool) (s : St), oracle.headD false = true →
      syncOnePageOfNewPlayers db oracle s = (Except.error (), [])) := by
  refine ⟨?_, ?_, ?_⟩
  · intro db fuel ps off rest board hge
    show (if (true :: rest).headD false then _ else _) = _
    simp only [List.headD_cons, if_true]
    rw [if_neg hge]
    rfl
  · intro db fuel ps off rest board hlt
    show (if (true :: rest).headD false then _ else _) = _
    simp only [List.headD_cons, if_true]
    rw [if_pos hlt]
  · intro db oracle s hfail
    unfold syncOnePageOfNewPlayers
    rw [hfail]
    rfl

/-- C8 amended witness: the retry law evaluated at a failing first read with
pageSize 100,000 (retried at the same offset with 50,000), at pageSize 1500
(aborts since 750 is below the floor), and the delta-sync abort at the same
failing oracle. -/
theorem adaptiveRetry_init_vs_sync_witness :
    (¬ ((100000 : Nat) / 2 < 1000)) ∧
    initLoop dbOne 1 [true] 100000 0 [] = initLoop dbOne 0 [] 50000 0 [] ∧
    ((1500 : Nat) / 2 < 1000) ∧
    initLoop dbOne 1 [true] 1500 0 [] = some (Except.error ()) ∧
    ([true].headD false = true) ∧
    syncOnePageOfNewPlayers dbOne [true] stReady = (Except.error (), []) :=
  ⟨by decide,
   adaptiveRetry_init_vs_sync.1 dbOne 0 100000 0 [] [] (by decide),
   by decide,
   adaptiveRetry_init_vs_sync.2.1 dbOne 0 1500 0 [] [] (by decide),
   rfl,
   adaptiveRetry_init_vs_sync.2.2 dbOne [true] stReady rfl⟩

/-! ## C10 -/

/-- C10: with both sync-state keys absent, a delta pass parses them as 0, its
predicate degenerates to id greater than 0 — which selects every player when
ids are positive — and the pass runs the normal upsert path (it does not
fail), re-streaming the first page of the whole population. -/
theorem syncOnePage_missing_markers (db : List PlayerRec) (oracle : List Bool) (s : St)
    (h1 : s.lastKnownId = none) (h2 : s.syncOffset = none)
    (hok : oracle.headD false = false) (hid : ∀ p ∈ db, 1 ≤ p.id) :
    s.lastKnownId.getD 0 = 0 ∧ s.syncOffset.getD 0 = 0 ∧
    (sortById db).filter (fun p => (0 : Nat) < p.id) = sortById db ∧
    pageOf db (fun p => s.lastKnownId.getD 0 < p.id) (s.syncOffset.getD 0) 100000 =
      (sortById db).take 100000 ∧
    (syncOnePageOfNewPlayers db oracle s).1 ≠ Except.error () ∧
    syncOnePageOfNewPlayers db oracle s =
      (if ((sortById db).take 100000).isEmpty then
        (Except.ok (true, { s with syncOffset := some 0 }), [])
      else
        (Except.ok (false,
          { s with
              board := upsertRows s.board ((sortById db).take 100000),
              syncOffset := some ((sortById db).take 100000).length }), [])) := by
  have hfil : (sortById db).filter (fun p => (0 : Nat) < p.id) = sortById db := by
    rw [List.filter_eq_self]
    intro p hp
    have hpm : p ∈ db := (List.perm_insertionSort _ db).mem_iff.mp hp
    simp
    exact hid p hpm
  have hpage : pageOf db (fun p => s.lastKnownId.getD 0 < p.id) (s.syncOffset.getD 0) 100000 =
      (sortById db).take 100000 := by
    unfold pageOf
    rw [h1, h2]
    simpa using congrArg (fun l => List.take 100000 l) hfil
  have hrun : syncOnePageOfNewPlayers db oracle s =
      (if ((sortById db).take 100000).isEmpty then
        (Except.ok (true, { s with syncOffset := some 0 }), [])
      else
        (Except.ok (false,
          { s with
              board := upsertRows s.board ((sortById db).take 100000),
              syncOffset := some ((sortById db).take 100000).length }), [])) := by
    unfold syncOnePageOfNewPlayers
    rw [hok]
    simp only [Bool.false_eq_true, if_false]
    rw [hpage, h2]
    simp
  refine ⟨by rw [h1]; rfl, by rw [h2]; rfl, hfil, hpage, ?_, hrun⟩
  rw [hrun]
  by_cases hemp : ((sortById db).take 100000).isEmpty
  · simp [hemp]
  · simp [hemp]

/-- C10 witness: the missing-marker law applied to a fresh state (both keys
absent) over the one-player store, whose only id is positive. -/
theorem syncOnePage_missing_markers_witness :
    stZero.lastKnownId = none ∧ stZero.syncOffset = none ∧
    (([] : List Bool).headD false = false) ∧ (∀ p ∈ dbOne, 1 ≤ p.id) ∧
    (stZero.lastKnownId.getD 0 = 0 ∧ stZero.syncOffset.getD 0 = 0 ∧
    (sortById dbOne).filter (fun p => (0 : Nat) < p.id) = sortById dbOne ∧
    pageOf dbOne (fun p => stZero.lastKnownId.getD 0 < p.id) (stZero.syncOffset.getD 0) 100000 =
      (sortById dbOne).take 100000 ∧
    (syncOnePageOfNewPlayers dbOne [] stZero).1 ≠ Except.error () ∧
    syncOnePageOfNewPlayers dbOne [] stZero =
      (if ((sortById dbOne).take 100000).isEmpty then
        (Except.ok (true, { stZero with syncOffset := some 0 }), [])
      else
        (Except.ok (false,
          { stZero with
              board := upsertRows stZero.board ((sortById dbOne).take 100000),
              syncOffset := some ((sortById dbOne).take 100000).length }), []))) :=
  ⟨rfl, rfl, rfl, by decide,
   syncOnePage_missing_markers dbOne [] stZero rfl rfl rfl (by decide)⟩

/-! ## C5 -/

/-- C5: a full rebuild first clears the ranking projection, the ready flag
and the sync cursor (the prologue); a run that completes leaves the ready
flag set, last_known_id equal to the maximum store id, and the sync cursor 0;
a run that aborts with an error leaves the ready flag unset. -/
theorem initializeLeaderboard_rebuild (db : List PlayerRec) (oracle : List Bool) (fuel : Nat)
    (s : St) (h : s.processing = false) :
    (initPrologue s).board = [] ∧ (initPrologue s).initDone = false ∧
    (initPrologue s).syncOffset = some 0 ∧
    (∀ s2 tr, initializeLeaderboard db oracle fuel s = some (InitOutcome.completed, s2, tr) →
      s2.initDone = true ∧ s2.lastKnownId = some (maxPlayerId db) ∧ s2.syncOffset = some 0 ∧
      s2.processing = false) ∧
    (∀ s2 tr, initializeLeaderboard db oracle fuel s = some (InitOutcome.aborted, s2, tr) →
      s2.initDone = false) := by
  refine ⟨rfl, rfl, rfl, ?_, ?_⟩
  · intro s2 tr hrun
    unfold initializeLeaderboard at hrun
    rw [h] at hrun
    simp only [Bool.false_eq_true, if_false] at hrun
    cases hloop : initLoop db fuel oracle 500000 0 [] with
    | none => rw [hloop] at hrun; cases hrun
    | some r =>
      rw [hloop] at hrun
      cases r with
      | error e => cases hrun
      | ok b =>
        cases hrun
        exact ⟨rfl, rfl, rfl, rfl⟩
  · intro s2 tr hrun
    unfold initializeLeaderboard at hrun
    rw [h] at hrun
    simp only [Bool.false_eq_true, if_false] at hrun
    cases hloop : initLoop db fuel oracle 500000 0 [] with
    | none => rw [hloop] at hrun; cases hrun
    | some r =>
      rw [hloop] at hrun
      cases r with
      | error e => cases hrun; rfl
      | ok b => cases hrun

/-- C5 witness: the rebuild law at the fresh state over the one-player store,
together with the concrete completed run it describes. -/
theorem initializeLeaderboard_rebuild_witness :
    stZero.processing = false ∧
    initializeLeaderboard dbOne [] 3 stZero =
      some (InitOutcome.completed,
        St.mk false [{ member := "1", score := 1000 }] true (some 1) (some 0),
        [true, false]) ∧
    ((initPrologue stZero).board = [] ∧ (initPrologue stZero).initDone = false ∧
    (initPrologue stZero).syncOffset = some 0 ∧
    (∀ s2 tr, initializeLeaderboard dbOne [] 3 stZero = some (InitOutcome.completed, s2, tr) →
      s2.initDone = true ∧ s2.lastKnownId = some (maxPlayerId dbOne) ∧ s2.syncOffset = some 0 ∧
      s2.processing = false) ∧
    (∀ s2 tr, initializeLeaderboard dbOne [] 3 stZero = some (InitOutcome.aborted, s2, tr) →
      s2.initDone = false)) :=
  ⟨rfl, by rfl, initializeLeaderboard_rebuild dbOne [] 3 stZero rfl⟩

/-! ## C3 -/

/-- C3 counterexample: distributeWeeklyRewards called on a state whose lock
is held still performs its store updates, assigns nothing to the lock (its
lock trace is empty), and leaves the lock untouched — so the distribution
neither sets the lock before running nor skips its run when the lock is
held. -/
theorem distributeWeeklyRewards_lock_cex :
    stLocked.processing = true ∧
    (distributeWeeklyRewards dbOne stLocked).2.2 = [] ∧
    (distributeWeeklyRewards dbOne stLocked).2.1.processing = true ∧
    (distributeWeeklyRewards dbOne stLocked).1 ≠ dbOne := by
  have hamt : jsRound (rewardAmount (poolOf [{ member := "1", score := 1000 }]) 0) = 4 := by
    have hp : poolOf [({ member := "1", score := 1000 } : ZEntry)] = 20 := by
      simp [poolOf]
      norm_num
    unfold rewardAmount
    rw [if_pos (by omega), hp]
    show jsRound (20 * (rankPct 1 / 100)) = 4
    apply jsRound_eq <;> norm_num [rankPct]
  refine ⟨rfl, rfl, rfl, ?_⟩
  show applyUpdates dbOne (rewardUpdates (zrevrangeEntries stLocked.board 0 99)) ≠ dbOne
  have hz : zrevrangeEntries stLocked.board 0 99 = [{ member := "1", score := 1000 }] := rfl
  rw [hz]
  unfold rewardUpdates
  simp only [List.length_cons, List.length_nil, List.range_succ, List.range_zero,
    List.nil_append, List.map_cons, List.map_nil]
  rw [List.getD_cons_zero]
  unfold applyUpdates
  simp only [List.foldl_cons, List.foldl_nil, hamt]
  intro hco
  rw [dbOne] at hco
  simp at hco
  exact hco rfl

/-- C3 amended: only the full rebuild acquires the lock — it skips when the
lock is held, and otherwise its lock trace is exactly set-true then set-false
(cleared on every exit); the delta-sync pass and the reward distribution
never write the lock (their lock traces are empty and the lock state passes
through), and mutual exclusion for them exists only in their cron wrappers,
which skip the trigger when the lock is held. -/
theorem singleFlightLock_protocol :
    (∀ (db : List PlayerRec) (oracle : List Bool) (fuel : Nat) (s : St), s.processing = true →
      initializeLeaderboard db oracle fuel s = some (InitOutcome.skipped, s, [])) ∧
    (∀ (db : List PlayerRec) (oracle : List Bool) (fuel : Nat) (s : St) out s2 tr,
      s.processing = false →
      initializeLeaderboard db oracle fuel s = some (out, s2, tr) →
      tr = [true, false] ∧ s2.processing = false) ∧
    (∀ (db : List PlayerRec) (oracle : List Bool) (s : St),
      (syncOnePageOfNewPlayers db oracle s).2 = []) ∧
    (∀ (db : List PlayerRec) (oracle : List Bool) (s : St) d s2 tr,
      syncOnePageOfNewPlayers db oracle s = (Except.ok (d, s2), tr) →
      s2.processing = s.processing) ∧
    (∀ (db : List PlayerRec) (s : St),
      (distributeWeeklyRewards db s).2.1 = s ∧ (distributeWeeklyRewards db s).2.2 = []) ∧
    (∀ (db : List PlayerRec) (oracle : List Bool) (s : St), s.processing = true →
      cronDeltaTick db oracle s = s) ∧
    (∀ (db : List PlayerRec) (oracle : List Bool) (fuel : Nat) (s : St), s.processing = true →
      cronWeeklyTick db oracle fuel s = some (db, s, [])) := by
  refine ⟨?_, ?_, ?_, ?_, ?_, ?_, ?_⟩
  · intro db oracle fuel s hp
    unfold initializeLeaderboard
    rw [hp]
    rfl
  · intro db oracle fuel s out s2 tr hp hrun
    unfold initializeLeaderboard at hrun
    rw [hp] at hrun
    simp only [Bool.false_eq_true, if_false] at hrun
    cases hloop : initLoop db fuel oracle 500000 0 [] with
    | none => rw [hloop] at hrun; cases hrun
    | some r =>
      rw [hloop] at hrun
      cases r with
      | error e => cases hrun; exact ⟨rfl, rfl⟩
      | ok b => cases hrun; exact ⟨rfl, rfl⟩
  · intro db oracle s
    unfold syncOnePageOfNewPlayers
    by_cases hf : oracle.headD false
    · rw [if_pos hf]
    · rw [if_neg hf]
      by_cases hemp : (pageOf db (fun p => s.lastKnownId.getD 0 < p.id)
          (s.syncOffset.getD 0) 100000).isEmpty
      · rw [if_pos hemp]
      · rw [if_neg hemp]
  · intro db oracle s d s2 tr hrun
    unfold syncOnePageOfNewPlayers at hrun
    by_cases hf : oracle.headD false
    · rw [if_pos hf] at hrun; cases hrun
    · rw [if_neg hf] at hrun
      by_cases hemp : (pageOf db (fun p => s.lastKnownId.getD 0 < p.id)
          (s.syncOffset.getD 0) 100000).isEmpty
      · rw [if_pos hemp] at hrun; cases hrun; rfl
      · rw [if_neg hemp] at hrun; cases hrun; rfl
  · intro db s
    exact ⟨rfl, rfl⟩
  · intro db oracle s hp
    unfold cronDeltaTick
    rw [hp]
    rfl
  · intro db oracle fuel s hp
    unfold cronWeeklyTick
    rw [hp]
    rfl

/-- C3 amended witness: the lock protocol evaluated at concrete states — the
rebuild skips on the locked state and traces set-true/set-false on the fresh
state, the cron wrappers skip on the locked state, and the delta pass and the
distribution write no lock values. -/
theorem singleFlightLock_protocol_witness :
    (stLocked.processing = true) ∧
    initializeLeaderboard dbOne [] 1 stLocked = some (InitOutcome.skipped, stLocked, []) ∧
    ([true, false] = [true, false] ∧
      (St.mk false [{ member := "1", score := 1000 }] true (some 1) (some 0)).processing =
        false) ∧
    (syncOnePageOfNewPlayers dbOne [] stReady).2 = [] ∧
    ((distributeWeeklyRewards dbOne stReady).2.1 = stReady ∧
      (distributeWeeklyRewards dbOne stReady).2.2 = []) ∧
    cronDeltaTick dbOne [] stLocked = stLocked ∧
    cronWeeklyTick dbOne [] 1 stLocked = some (dbOne, stLocked, []) :=
  ⟨rfl,
   singleFlightLock_protocol.1 dbOne [] 1 stLocked rfl,
   singleFlightLock_protocol.2.1 dbOne [] 3 stZero InitOutcome.completed
     (St.mk false [{ member := "1", score := 1000 }] true (some 1) (some 0)) [true, false]
     rfl (by rfl),
   singleFlightLock_protocol.2.2.1 dbOne [] stReady,
   singleFlightLock_protocol.2.2.2.2.1 dbOne stReady,
   singleFlightLock_protocol.2.2.2.2.2.1 dbOne [] stLocked rfl,
   singleFlightLock_protocol.2.2.2.2.2.2 dbOne [] 1 stLocked rfl⟩

/-! ## C6 -/

/-- In a board sorted strictly by descending score with no duplicate member,
the 0-based position of an entry equals the number of entries with strictly
greater score. -/
theorem zrevrankOf_eq_countP (l : List ZEntry)
    (hsort : List.Pairwise (fun a b => b.score < a.score) l)
    (hnodup : (l.map ZEntry.member).Nodup)
    (e : ZEntry) (he : e ∈ l) :
    zrevrankOf l e.member = some (l.countP (fun x => e.score < x.score)) := by
  induction l with
  | nil => cases he
  | cons h t ih =>
    rw [List.pairwise_cons] at hsort
    obtain ⟨hgt, hst⟩ := hsort
    rw [List.map_cons, List.nodup_cons] at hnodup
    obtain ⟨hnm, hnt⟩ := hnodup
    unfold zrevrankOf
    by_cases heq : h.member = e.member
    · have hee : e = h := by
        cases he with
        | head => rfl
        | tail _ hmemt =>
          exact absurd (heq ▸ List.mem_map_of_mem ZEntry.member hmemt) hnm
      subst hee
      rw [if_pos heq]
      have hz : List.countP (fun x => decide (e.score < x.score)) (e :: t) = 0 := by
        rw [List.countP_eq_zero]
        intro a ha
        cases ha with
        | head => simp
        | tail _ hat =>
          simp
          exact le_of_lt (hgt a hat)
      rw [hz]
    · rw [if_neg heq]
      have het : e ∈ t := by
        cases he with
        | head => exact absurd rfl heq
        | tail _ hmemt => exact hmemt
      rw [ih hst hnt het]
      rw [List.countP_cons]
      have hlt : e.score < h.score := hgt e het
      have : (decide (e.score < h.score)) = true := by simpa using hlt
      simp [this]

/-- C6 counterexample: with two tied entries the cache orders the tie by
descending member string, so the row of player 1 is ranked 2 although no
entry has a strictly greater score — the rank attached by getLeaderboardData
is not 1 + (count of strictly greater scores). -/
theorem getLeaderboardData_rank_tie_cex :
    getLeaderboardData dbT countriesX [] 1 none stT =
      some (LBOut.rows
        [RankedRow.mk 2 ("b") ("X") 50 (some 1), RankedRow.mk 1 ("a") ("X") 50 (some 2)],
        stT, []) ∧
    (RankedRow.mk 1 ("a") ("X") 50 (some 2)).rank = some 2 ∧
    ({ member := "1", score := 50 } : ZEntry) ∈ stT.board ∧
    ({ id := 1, name := "a", countryId := 1, money := 50 } : PlayerRec) ∈ dbT ∧
    stT.board.countP (fun x => (50 : Int) < x.score) = 0 ∧
    (some 2 : Option Nat) ≠
      some (1 + stT.board.countP (fun x => (50 : Int) < x.score)) := by
  refine ⟨by rfl, rfl, by decide, by decide, by decide, by decide⟩

/-- C6 amended: when the projection carries pairwise distinct scores (and,
as Redis guarantees, no duplicate member), the rank attached to any returned
row equals 1 + the number of projection entries with strictly greater score;
with ties the tie-broken position is used instead. -/
theorem getLeaderboardData_rank_law (db : List PlayerRec) (countries : List (Nat × String))
    (oracle : List Bool) (fuel : Nat) (pid : Option String) (s : St)
    (rs : List RankedRow) (s2 : St) (tr : List Bool) (row : RankedRow) (e : ZEntry)
    (hsort : List.Pairwise (fun a b : ZEntry => b.score < a.score) s.board)
    (hnodup : (s.board.map ZEntry.member).Nodup)
    (hne : s.board ≠ [])
    (hrun : getLeaderboardData db countries oracle fuel pid s = some (LBOut.rows rs, s2, tr))
    (hrow : row ∈ rs) (hmem : e ∈ s.board) (hm : e.member = toString row.id) :
    row.rank = some (1 + s.board.countP (fun x => e.score < x.score)) := by
  unfold getLeaderboardData at hrun
  rw [isEmpty_false_of_ne_nil _ hne] at hrun
  simp only [Bool.false_eq_true, if_false, Option.bind_eq_bind, Option.some_bind] at hrun
  cases hw : windowIds s.board pid with
  | none =>
    rw [hw] at hrun
    cases hrun
  | some ids =>
    rw [hw] at hrun
    dsimp only at hrun
    by_cases hie : ids.isEmpty
    · rw [if_pos hie] at hrun
      cases hrun
      cases hrow
    · rw [if_neg hie] at hrun
      cases hrun
      rw [hydrate, List.mem_filterMap] at hrow
      obtain ⟨idStr, hid, hstep⟩ := hrow
      cases hfind : db.find? (fun p => toString p.id == idStr) with
      | none => rw [hfind] at hstep; cases hstep
      | some p =>
        rw [hfind] at hstep
        dsimp only at hstep
        cases hfc : countries.find? (fun c => c.1 == p.countryId) with
        | none => rw [hfc] at hstep; cases hstep
        | some c =>
          rw [hfc] at hstep
          dsimp only at hstep
          cases hstep
          have hps : toString p.id = idStr := by
            have := List.find?_some hfind
            simpa using this
          have hme : e.member = idStr := by
            rw [hm]
            exact hps
          rw [← hme, zrevrankOf_eq_countP s.board hsort hnodup e hmem]
          simp [Nat.add_comm]

/-- C6 amended witness: the rank law applied to a concrete two-player run
with distinct scores, where the second row is ranked 2 = 1 + 1. -/
theorem getLeaderboardData_rank_law_witness :
    List.Pairwise (fun a b : ZEntry => b.score < a.score) stW.board ∧
    (stW.board.map ZEntry.member).Nodup ∧
    stW.board ≠ [] ∧
    getLeaderboardData dbW countriesX [] 1 none stW =
      some (LBOut.rows
        [RankedRow.mk 1 ("a") ("X") 60 (some 1), RankedRow.mk 2 ("b") ("X") 50 (some 2)],
        stW, []) ∧
    RankedRow.mk 2 ("b") ("X") 50 (some 2) ∈
      [RankedRow.mk 1 ("a") ("X") 60 (some 1), RankedRow.mk 2 ("b") ("X") 50 (some 2)] ∧
    ({ member := "2", score := 50 } : ZEntry) ∈ stW.board ∧
    ({ member := "2", score := 50 } : ZEntry).member =
      toString (RankedRow.mk 2 ("b") ("X") 50 (some 2)).id ∧
    (RankedRow.mk 2 ("b") ("X") 50 (some 2)).rank =
      some (1 + stW.board.countP
        (fun x => ({ member := "2", score := 50 } : ZEntry).score < x.score)) :=
  ⟨by decide, by decide, by decide, by rfl, by decide, by decide, by decide,
   getLeaderboardData_rank_law dbW countriesX [] 1 none stW
     [RankedRow.mk 1 ("a") ("X") 60 (some 1), RankedRow.mk 2 ("b") ("X") 50 (some 2)]
     stW [] (RankedRow.mk 2 ("b") ("X") 50 (some 2)) { member := "2", score := 50 }
     (by decide) (by decide) (by decide) (by rfl) (by decide) (by decide) (by decide)⟩

/-! ## C2 -/

set_option maxRecDepth 8192 in
/-- C2 counterexample: on a 110-player projection with distinct scores, the
player ranked 104 (0-based 103) is outside the top 100 and the returned
window carries 106 entries — the top 100 plus all 6 neighbourhood ranks — so
the claimed bound of 105 fails. -/
theorem windowIds_size_cex :
    zrevrankOf board110 (toString 104) = some 103 ∧ ¬ (103 < 100) ∧
    (windowIds board110 (some (toString 104))).map List.length = some 106 ∧
    lbRowCount (getLeaderboardData db110 countriesX [] 1 (some (toString 104)) st110) =
      some 106 ∧
    ¬ (106 ≤ 105) := by
  refine ⟨by decide, by decide, by decide, by decide, by decide⟩

/-- C2 amended: for a requested player found in the cache at 0-based rank r
with r at least 100 (strictly outside the top 100), the window is exactly the
top-100 members followed by the members at 0-based ranks r-3 .. r+2 that are
not already in the top 100; the appended segment is in ascending rank order
(a sublist of the display order), the window size is at most 106 (not 105),
and getLeaderboardData returns exactly the hydration of that window. -/
theorem windowIds_outside_top100 (db : List PlayerRec) (countries : List (Nat × String))
    (oracle : List Bool) (fuel : Nat) (s : St) (pid : String) (r : Nat)
    (hne : s.board ≠ [])
    (hrank : zrevrankOf s.board pid = some r) (hout : ¬ r < 100) :
    windowIds s.board (some pid) =
      some (zrevrangeMembers s.board 0 99 ++
        (zrevrangeMembers s.board (r - 3) (r + 2)).filter
          (fun x => ¬ (zrevrangeMembers s.board 0 99).contains x)) ∧
    (zrevrangeMembers s.board 0 99 ++
      (zrevrangeMembers s.board (r - 3) (r + 2)).filter
        (fun x => ¬ (zrevrangeMembers s.board 0 99).contains x)).length ≤ 106 ∧
    ((zrevrangeMembers s.board (r - 3) (r + 2)).filter
      (fun x => ¬ (zrevrangeMembers s.board 0 99).contains x)).Sublist
      (s.board.map ZEntry.member) ∧
    getLeaderboardData db countries oracle fuel (some pid) s =
      some (LBOut.rows (hydrate db countries s.board
        (zrevrangeMembers s.board 0 99 ++
          (zrevrangeMembers s.board (r - 3) (r + 2)).filter
            (fun x => ¬ (zrevrangeMembers s.board 0 99).contains x))), s, []) := by
  have hw : windowIds s.board (some pid) =
      some (zrevrangeMembers s.board 0 99 ++
        (zrevrangeMembers s.board (r - 3) (r + 2)).filter
          (fun x => ¬ (zrevrangeMembers s.board 0 99).contains x)) := by
    unfold windowIds
    dsimp only
    rw [hrank]
    dsimp only
    rw [if_neg hout]
  have hlen1 : (zrevrangeMembers s.board 0 99).length ≤ 100 := by
    unfold zrevrangeMembers zrevrangeEntries
    rw [List.length_map, List.length_take]
    omega
  have hlen2 : ((zrevrangeMembers s.board (r - 3) (r + 2)).filter
      (fun x => ¬ (zrevrangeMembers s.board 0 99).contains x)).length ≤ 6 := by
    calc ((zrevrangeMembers s.board (r - 3) (r + 2)).filter
        (fun x => ¬ (zrevrangeMembers s.board 0 99).contains x)).length
        ≤ (zrevrangeMembers s.board (r - 3) (r + 2)).length :=
          List.length_filter_le _ _
      _ ≤ 6 := by
          unfold zrevrangeMembers zrevrangeEntries
          rw [List.length_map, List.length_take]
          omega
  have hsub : ((zrevrangeMembers s.board (r - 3) (r + 2)).filter
      (fun x => ¬ (zrevrangeMembers s.board 0 99).contains x)).Sublist
      (s.board.map ZEntry.member) := by
    have h1 : ((zrevrangeMembers s.board (r - 3) (r + 2)).filter
        (fun x => ¬ (zrevrangeMembers s.board 0 99).contains x)).Sublist
        (zrevrangeMembers s.board (r - 3) (r + 2)) := List.filter_sublist _
    have h2 : (zrevrangeEntries s.board (r - 3) (r + 2)).Sublist s.board := by
      unfold zrevrangeEntries
      exact ((s.board.drop (r - 3)).take_sublist _).trans (s.board.drop_sublist _)
    exact h1.trans (by
      unfold zrevrangeMembers
      exact h2.map ZEntry.member)
  have hlentop : 1 ≤ (zrevrangeMembers s.board 0 99).length := by
    unfold zrevrangeMembers zrevrangeEntries
    rw [List.length_map, List.length_take]
    have := List.length_pos.mpr hne
    simp
    omega
  have hne2 : (zrevrangeMembers s.board 0 99 ++
      (zrevrangeMembers s.board (r - 3) (r + 2)).filter
        (fun x => ¬ (zrevrangeMembers s.board 0 99).contains x)) ≠ [] := by
    intro hc
    have := congrArg List.length hc
    rw [List.length_append] at this
    simp only [List.length_nil] at this
    omega
  refine ⟨hw, ?_, hsub, ?_⟩
  · rw [List.length_append]
    exact le_trans (Nat.add_le_add hlen1 hlen2) (by omega)
  · unfold getLeaderboardData
    rw [isEmpty_false_of_ne_nil _ hne]
    simp only [Bool.false_eq_true, if_false, Option.some_bind]
    rw [hw]
    dsimp only
    rw [isEmpty_false_of_ne_nil _ hne2]
    simp only [Bool.false_eq_true, if_false]

set_option maxRecDepth 8192 in
/-- C2 amended witness: the window law applied to the 110-player projection
at the player ranked 104 (0-based 103). -/
theorem windowIds_outside_top100_witness :
    st110.board ≠ [] ∧
    zrevrankOf st110.board (toString 104) = some 103 ∧
    ¬ (103 < 100) ∧
    (windowIds st110.board (some (toString 104)) =
      some (zrevrangeMembers st110.board 0 99 ++
        (zrevrangeMembers st110.board (103 - 3) (103 + 2)).filter
          (fun x => ¬ (zrevrangeMembers st110.board 0 99).contains x)) ∧
    (zrevrangeMembers st110.board 0 99 ++
      (zrevrangeMembers st110.board (103 - 3) (103 + 2)).filter
        (fun x => ¬ (zrevrangeMembers st110.board 0 99).contains x)).length ≤ 106 ∧
    ((zrevrangeMembers st110.board (103 - 3) (103 + 2)).filter
      (fun x => ¬ (zrevrangeMembers st110.board 0 99).contains x)).Sublist
      (st110.board.map ZEntry.member) ∧
    getLeaderboardData db110 countriesX [] 1 (some (toString 104)) st110 =
      some (LBOut.rows (hydrate db110 countriesX st110.board
        (zrevrangeMembers st110.board 0 99 ++
          (zrevrangeMembers st110.board (103 - 3) (103 + 2)).filter
            (fun x => ¬ (zrevrangeMembers st110.board 0 99).contains x))), st110, [])) :=
  ⟨by decide, by decide, by decide,
   windowIds_outside_top100 db110 countriesX [] 1 st110 (toString 104) 103
     (by decide) (by decide) (by decide)⟩

end Leaderboard
